import Mathlib

/-!
Shallow embedding of the flyteadmin execution lifecycle managers
(`ExecutionManager`, `NodeExecutionManager`, `TaskManager`) and the
notification delivery `Processor`, together with proofs of the spec claims.

Persistent repositories (the gorm-backed execution / node-execution / task
tables) are modelled as association lists, the blob store as an association
list keyed by reference strings, and external collaborators (the workflow
executor, the URL signer, the task compiler, pubsub decode calls) as explicit
function or result parameters.  Machine integers do not overflow in any of the
modelled code paths, so `Nat` is used directly.
-/

namespace Flyteadmin

/-- gRPC status codes used by the flyteadmin error constructors
(`errors.NewFlyteAdminErrorf` and friends).  `unknown` stands for an error
propagated verbatim from a collaborator (storage, executor). -/
inductive Code where
  | invalidArgument
  | notFound
  | alreadyExists
  | failedPrecondition
  | internal
  | unknown
deriving DecidableEq, Repr

/-- Phases of a workflow execution, from flyteidl
`core.WorkflowExecution_Phase`. -/
inductive WorkflowPhase where
  | undefined
  | queued
  | running
  | succeeding
  | succeeded
  | failing
  | failed
  | aborted
  | timedOut
deriving DecidableEq, Repr

/-- Phases of a node execution, from flyteidl `core.NodeExecution_Phase`. -/
inductive NodePhase where
  | undefined
  | queued
  | running
  | succeeded
  | failing
  | failed
  | aborted
  | skipped
  | timedOut
deriving DecidableEq, Repr

/-- Modelled from the spec: `common.IsExecutionTerminal` is not under `src/`.
Per the spec glossary a terminal phase is any phase from which no further
transition is accepted: succeeded, failed, aborted, timed-out. -/
def isExecutionTerminal : WorkflowPhase → Bool
  | .succeeded => true
  | .failed => true
  | .aborted => true
  | .timedOut => true
  | _ => false

/-- Modelled from the spec: `common.IsNodeExecutionTerminal` is not under
`src/`.  Same absorbing terminal class as for workflow executions. -/
def isNodeExecutionTerminal : NodePhase → Bool
  | .succeeded => true
  | .failed => true
  | .aborted => true
  | .timedOut => true
  | _ => false

instance {ε α : Type} [DecidableEq ε] [DecidableEq α] : DecidableEq (Except ε α) := fun x y =>
  match x, y with
  | .ok a, .ok b =>
    if h : a = b then isTrue (by rw [h]) else isFalse (by intro hc; cases hc; exact h rfl)
  | .error a, .error b =>
    if h : a = b then isTrue (by rw [h]) else isFalse (by intro hc; cases hc; exact h rfl)
  | .ok _, .error _ => isFalse (by intro hc; cases hc)
  | .error _, .ok _ => isFalse (by intro hc; cases hc)

/-- Identity of a workflow execution: (project, domain, name). -/
structure ExecutionKey where
  project : String
  domain : String
  name : String
deriving DecidableEq, Repr

/-- Literal maps are treated as opaque key/value payloads; their internal
structure is irrelevant to the modelled code paths. -/
abbrev LiteralMap := List (String × String)

/-- Recipients of one notification channel, from flyteidl
(`admin.EmailNotification` / `admin.PagerDutyNotification` /
`admin.SlackNotification` all carry exactly a recipients list). -/
structure EmailNotification where
  recipientsEmail : List String
deriving DecidableEq, Repr

/-- One notification setting (flyteidl `admin.Notification`): trigger phases
plus a polymorphic channel.  The channel is a proto oneof whose three arms are
surfaced through `GetEmail` / `GetPagerDuty` / `GetSlack`; each accessor is
modelled as an `Option` field, at most one of which is populated in
well-formed data (the code must also handle the all-`none` case). -/
structure Notification where
  phases : List WorkflowPhase
  email : Option EmailNotification
  pagerDuty : Option EmailNotification
  slack : Option EmailNotification
deriving DecidableEq, Repr

/-- Modelled from the spec: the email construction helper
`notifications.ToEmailMessageFromWorkflowExecutionEvent` is not under `src/`.
Per the spec it normalizes a surviving entry into a single channel-agnostic
email-shaped message addressed to the entry's configured recipients. -/
structure EmailMessage where
  recipientsEmail : List String
deriving DecidableEq, Repr

/-- Stored workflow execution row (`models.Execution`), restricted to the
fields the modelled code paths read or write. -/
structure ExecutionModel where
  id : Nat
  phase : WorkflowPhase
  cluster : String
  abortCause : String
  inputsURI : String
  userInputsURI : String
  outputsURI : String
  sourceExecutionID : Nat
  notifications : List Notification
  legacyComputedInputs : Option LiteralMap
deriving DecidableEq, Repr

/-- Stored node execution row (`models.NodeExecution`), restricted to the
fields the modelled code paths read or write. -/
structure NodeExecutionModel where
  phase : NodePhase
  parentTaskExecutionID : Option Nat
  childExecutionId : Option ExecutionKey
deriving DecidableEq, Repr

/-- Identity of a node execution: (workflow execution identity, node id). -/
structure NodeExecutionKey where
  executionId : ExecutionKey
  nodeId : String
deriving DecidableEq, Repr

/-- Append-only audit row for an accepted workflow execution event. -/
structure ExecutionEventModel where
  executionId : ExecutionKey
  requestId : String
  phase : WorkflowPhase
deriving DecidableEq, Repr

/-- Append-only audit row for an accepted node execution event. -/
structure NodeExecutionEventModel where
  id : NodeExecutionKey
  requestId : String
  phase : NodePhase
deriving DecidableEq, Repr

abbrev ExecutionDB := List (ExecutionKey × ExecutionModel)

abbrev NodeExecutionDB := List (NodeExecutionKey × NodeExecutionModel)

/-- The whole persisted state the managers touch: the execution and node
execution tables with their append-only event logs, the task execution table
(only row ids are consulted), the task table, and the blob storage. -/
structure AdminState where
  executions : ExecutionDB
  executionEvents : List ExecutionEventModel
  nodeExecutions : NodeExecutionDB
  nodeExecutionEvents : List NodeExecutionEventModel
  taskExecutions : List (String × Nat)
  storage : List (String × LiteralMap)
deriving DecidableEq, Repr

/-- Repository lookup by execution identity (`util.GetExecutionModel` /
`ExecutionRepo().Get`). -/
def getExecutionModel (db : ExecutionDB) (k : ExecutionKey) : Option ExecutionModel :=
  (db.find? (fun p => p.1 = k)).map (fun p => p.2)

/-- Repository lookup by numeric row id (`ExecutionRepo().GetByID`), used to
reconstruct the display identity of a relaunch source execution. -/
def getExecutionModelByID (db : ExecutionDB) (n : Nat) : Option (ExecutionKey × ExecutionModel) :=
  db.find? (fun p => p.2.id = n)

/-- Row update for the execution table keyed by execution identity. -/
def setExecutionModel (db : ExecutionDB) (k : ExecutionKey) (m : ExecutionModel) : ExecutionDB :=
  db.map (fun p => if p.1 = k then (k, m) else p)

/-- Repository lookup of a node execution row (`NodeExecutionRepo().Get`). -/
def getNodeExecutionModel (db : NodeExecutionDB) (k : NodeExecutionKey) : Option NodeExecutionModel :=
  (db.find? (fun p => p.1 = k)).map (fun p => p.2)

/-- Row update for the node execution table. -/
def setNodeExecutionModel (db : NodeExecutionDB) (k : NodeExecutionKey) (m : NodeExecutionModel) :
    NodeExecutionDB :=
  db.map (fun p => if p.1 = k then (k, m) else p)

/-- Repository lookup of a task execution row id (`util.GetTaskExecutionModel`),
keyed by the serialized task execution identifier. -/
def getTaskExecutionModel (db : List (String × Nat)) (k : String) : Option Nat :=
  (db.find? (fun p => p.1 = k)).map (fun p => p.2)

/-- Blob store read (`storageClient.ReadProtobuf`). -/
def readStorage (store : List (String × LiteralMap)) (uri : String) : Option LiteralMap :=
  (store.find? (fun p => p.1 = uri)).map (fun p => p.2)

/-- Blob store write (`storageClient.WriteProtobuf`): last write for a
reference wins. -/
def writeStorage (store : List (String × LiteralMap)) (uri : String) (payload : LiteralMap) :
    List (String × LiteralMap) :=
  (uri, payload) :: store.filter (fun p => p.1 ≠ uri)

/-- Modelled from the spec: `validation.ValidateWorkflowExecutionIdentifier`
is not under `src/`.  An identifier is well-formed when project, domain and
name are all present. -/
def validWorkflowExecutionIdentifier (k : ExecutionKey) : Bool :=
  k.project ≠ "" && k.domain ≠ "" && k.name ≠ ""

/-- Fixed key name for offloaded resolved inputs (`shared.Inputs`). -/
def sharedInputs : String := "inputs"

/-- Fixed key name for offloaded user inputs (`shared.UserInputs`). -/
def sharedUserInputs : String := "user_inputs"

/-- Modelled from the spec: `storageClient.ConstructReference` is not under
`src/`.  References are deterministic hierarchical paths derived from the
execution identity and a fixed key name under the metadata prefix. -/
def constructReference (k : ExecutionKey) (key : String) : String :=
  String.intercalate ("/") ["metadata", k.project, k.domain, k.name, key]

/-- Update applied to a stored execution row by an accepted event
(`transformers.UpdateExecutionModelState`): the reported phase is persisted. -/
def updateExecutionModelState (m : ExecutionModel) (phase : WorkflowPhase) : ExecutionModel :=
  { m with phase := phase }

/-- One inbound workflow execution event
(`admin.WorkflowExecutionEventRequest`). -/
structure WorkflowEvent where
  executionId : ExecutionKey
  requestId : String
  phase : WorkflowPhase
deriving DecidableEq, Repr

/-- Channel dispatch of `publishNotifications`: the first populated arm among
email, pager-duty and slack supplies the recipients. -/
def notificationRecipients (n : Notification) : Option EmailNotification :=
  match n.email with
  | some e => some e
  | none =>
    match n.pagerDuty with
    | some p => some p
    | none =>
      match n.slack with
      | some s => some s
      | none => none

/-- Notification pipeline of `ExecutionManager.publishNotifications`: entries
whose trigger-phase set does not contain the event phase are skipped; each
surviving entry is normalized into one email message; an entry with no
recognized channel aborts the loop with an `Internal` error (messages already
produced stay published, later entries are not reached).  Publish failures for
individual messages are counted but never surface, so they do not appear in
the result. -/
def publishNotifications (eventPhase : WorkflowPhase) :
    List Notification → List EmailMessage × Option Code
  | [] => ([], none)
  | notification :: rest =>
    if notification.phases.contains eventPhase then
      match notificationRecipients notification with
      | none => ([], some Code.internal)
      | some emailNotification =>
        let tail := publishNotifications eventPhase rest
        (EmailMessage.mk emailNotification.recipientsEmail :: tail.1, tail.2)
    else
      publishNotifications eventPhase rest

/-- Phase-transition handling of `ExecutionManager.CreateWorkflowEvent`.  The
field-presence validation of the raw request is upstream of this model (the
event type here is total).  A duplicate of the stored phase is rejected as
`AlreadyExists` before the terminal check; a transition out of a terminal
phase is rejected via `errors.NewAlreadyInTerminalStateError`, whose code is
`FailedPrecondition` per the spec.  An accepted event persists the new phase
and appends the audit event in one repository update; on a terminal phase the
notification pipeline runs and its fatal error (if any) is surfaced. -/
def CreateWorkflowEvent (s : AdminState) (request : WorkflowEvent) :
    AdminState × Except Code Unit :=
  match getExecutionModel s.executions request.executionId with
  | none => (s, .error .notFound)
  | some executionModel =>
    if executionModel.phase = request.phase then
      (s, .error .alreadyExists)
    else if isExecutionTerminal executionModel.phase then
      (s, .error .failedPrecondition)
    else
      let executionModel' := updateExecutionModelState executionModel request.phase
      let eventModel : ExecutionEventModel :=
        { executionId := request.executionId, requestId := request.requestId
          phase := request.phase }
      let s' : AdminState :=
        { s with
          executions := setExecutionModel s.executions request.executionId executionModel'
          executionEvents := s.executionEvents ++ [eventModel] }
      if isExecutionTerminal request.phase then
        match (publishNotifications request.phase executionModel'.notifications).2 with
        | some c => (s', .error c)
        | none => (s', .ok ())
      else
        (s', .ok ())

/-- One inbound node execution event (`admin.NodeExecutionEventRequest`).
`parentTaskMetadata` carries the serialized parent task execution identifier
when present; `workflowNodeMetadata` carries the identity of a child workflow
execution the node launched, when present. -/
structure NodeEvent where
  id : NodeExecutionKey
  requestId : String
  phase : NodePhase
  parentTaskMetadata : Option String
  workflowNodeMetadata : Option ExecutionKey
deriving DecidableEq, Repr

/-- Outcome tag of `updateNodeExecutionWithEvent`
(`updateNodeExecutionStatus`). -/
inductive UpdateNodeExecutionStatus where
  | updateSucceeded
  | updateFailed
  | alreadyInTerminalStatus
deriving DecidableEq, Repr

/-- First event for an unseen node identity
(`NodeExecutionManager.createNodeExecutionWithEvent`): when the event names a
parent task execution that execution must exist; the new row and the audit
event are written together. -/
def createNodeExecutionWithEvent (s : AdminState) (request : NodeEvent) :
    AdminState × Except Code Unit :=
  match request.parentTaskMetadata with
  | some taskExecutionKey =>
    match getTaskExecutionModel s.taskExecutions taskExecutionKey with
    | none => (s, .error .notFound)
    | some parentTaskExecutionID =>
      let nodeExecutionModel : NodeExecutionModel :=
        { phase := request.phase, parentTaskExecutionID := some parentTaskExecutionID
          childExecutionId := none }
      let eventModel : NodeExecutionEventModel :=
        { id := request.id, requestId := request.requestId, phase := request.phase }
      ({ s with
          nodeExecutions := s.nodeExecutions ++ [(request.id, nodeExecutionModel)]
          nodeExecutionEvents := s.nodeExecutionEvents ++ [eventModel] }, .ok ())
  | none =>
    let nodeExecutionModel : NodeExecutionModel :=
      { phase := request.phase, parentTaskExecutionID := none, childExecutionId := none }
    let eventModel : NodeExecutionEventModel :=
      { id := request.id, requestId := request.requestId, phase := request.phase }
    ({ s with
        nodeExecutions := s.nodeExecutions ++ [(request.id, nodeExecutionModel)]
        nodeExecutionEvents := s.nodeExecutionEvents ++ [eventModel] }, .ok ())

/-- Subsequent event for an existing node execution
(`NodeExecutionManager.updateNodeExecutionWithEvent`): a duplicate of the
stored phase fails with `AlreadyExists`; a stored terminal phase yields the
`alreadyInTerminalStatus` outcome with no error of its own; otherwise a child
workflow execution named by the event must exist, and the row update and audit
event are written together. -/
def updateNodeExecutionWithEvent (s : AdminState) (request : NodeEvent)
    (nodeExecutionModel : NodeExecutionModel) :
    AdminState × UpdateNodeExecutionStatus × Except Code Unit :=
  if nodeExecutionModel.phase = request.phase then
    (s, .updateFailed, .error .alreadyExists)
  else if isNodeExecutionTerminal nodeExecutionModel.phase then
    (s, .alreadyInTerminalStatus, .ok ())
  else
    let proceed : Option ExecutionKey → AdminState × UpdateNodeExecutionStatus × Except Code Unit :=
      fun childExecutionID =>
        let nodeExecutionModel' : NodeExecutionModel :=
          { nodeExecutionModel with
            phase := request.phase
            childExecutionId :=
              match childExecutionID with
              | some c => some c
              | none => nodeExecutionModel.childExecutionId }
        let eventModel : NodeExecutionEventModel :=
          { id := request.id, requestId := request.requestId, phase := request.phase }
        ({ s with
            nodeExecutions := setNodeExecutionModel s.nodeExecutions request.id nodeExecutionModel'
            nodeExecutionEvents := s.nodeExecutionEvents ++ [eventModel] },
          .updateSucceeded, .ok ())
    match request.workflowNodeMetadata with
    | some childExecutionID =>
      match getExecutionModel s.executions childExecutionID with
      | none => (s, .updateFailed, .error .notFound)
      | some _ => proceed (some childExecutionID)
    | none => proceed none

/-- Event ingestion of `NodeExecutionManager.CreateNodeEvent`: the owning
workflow execution must exist; the first event for an unseen node identity
creates the row, any subsequent event updates it; the
`alreadyInTerminalStatus` outcome is translated into the terminal-state error
(`errors.NewAlreadyInTerminalStateError`, code `FailedPrecondition` per the
spec). -/
def CreateNodeEvent (s : AdminState) (request : NodeEvent) :
    AdminState × Except Code Unit :=
  match getExecutionModel s.executions request.id.executionId with
  | none => (s, .error .notFound)
  | some _ =>
    match getNodeExecutionModel s.nodeExecutions request.id with
    | none => createNodeExecutionWithEvent s request
    | some nodeExecutionModel =>
      let result := updateNodeExecutionWithEvent s request nodeExecutionModel
      match result.2.2 with
      | .error c => (result.1, .error c)
      | .ok _ =>
        if result.2.1 = .alreadyInTerminalStatus then
          (result.1, .error .failedPrecondition)
        else
          (result.1, .ok ())

/-- Configuration key under which the primary queue name is written
(`parentContainerQueueKey`). -/
def parentContainerQueueKey : String := "parent_queue"

/-- Configuration key under which the dynamic queue name is written
(`childContainerQueueKey`). -/
def childContainerQueueKey : String := "child_queue"

/-- Key/value entry of a container configuration (`core.KeyValuePair`). -/
structure KeyValuePair where
  key : String
  value : String
deriving DecidableEq, Repr

/-- Container target of a task template (`core.Container`), restricted to the
configuration the queue allocator appends to. -/
structure Container where
  config : List KeyValuePair
deriving DecidableEq, Repr

/-- Task template of a compiled task (`core.TaskTemplate`); `container` is the
result of `GetContainer`, `none` when the task has a different target type. -/
structure TaskTemplate where
  id : String
  container : Option Container
deriving DecidableEq, Repr

/-- One task of a compiled workflow closure (`core.CompiledTask`). -/
structure CompiledTask where
  template : TaskTemplate
deriving DecidableEq, Repr

/-- Queue assignment returned by the queue allocator
(`executions.SingleQueueConfiguration`). -/
structure SingleQueueConfiguration where
  primaryQueue : String
  dynamicQueue : String
deriving DecidableEq, Repr

/-- Queue annotation of `ExecutionManager.populateExecutionQueue`: for every
task whose template has a container target, the primary queue name is appended
under `parentContainerQueueKey` and the dynamic queue name under
`childContainerQueueKey`, each only when non-empty; tasks without a container
target are left untouched.  The allocator lookup (`queueAllocator.GetQueue`)
is the caller-supplied `queueConfig`. -/
def populateExecutionQueue (queueConfig : SingleQueueConfiguration)
    (tasks : List CompiledTask) : List CompiledTask :=
  tasks.map fun task =>
    match task.template.container with
    | none => task
    | some container =>
      let container :=
        if queueConfig.primaryQueue ≠ "" then
          { container with
            config := container.config ++
              [{ key := parentContainerQueueKey, value := queueConfig.primaryQueue }] }
        else container
      let container :=
        if queueConfig.dynamicQueue ≠ "" then
          { container with
            config := container.config ++
              [{ key := childContainerQueueKey, value := queueConfig.dynamicQueue }] }
        else container
      { task with template := { task.template with container := some container } }

/-- Notification overrides carried by an execution-creation request: the
flyteidl `ExecutionSpec.notification_overrides` proto oneof, whose arms are
surfaced through `GetNotifications` (non-nil only for the first arm) and
`GetDisableAll` (true only for the second arm with value true). -/
inductive NotificationOverrides where
  | noOverride
  | notifications (l : List Notification)
  | disableAll (b : Bool)
deriving DecidableEq, Repr

/-- Effective notification list computed inside
`ExecutionManager.launchExecutionAndPrepareModel`: start from the launch
plan's entity metadata notifications (empty when the metadata is absent); a
non-empty request-level notification list takes precedence; otherwise an
explicit disable-all yields the empty list. -/
def resolveNotificationsSettings (launchPlanNotifications : Option (List Notification)) :
    NotificationOverrides → List Notification
  | .notifications l =>
    if 0 < l.length then l
    else launchPlanNotifications.getD []
  | .disableAll b =>
    if b then [] else launchPlanNotifications.getD []
  | .noOverride => launchPlanNotifications.getD []

/-- Modelled from the spec: `validation.ValidateToken` is not under `src/`.
An empty continuation token means offset zero; otherwise the token must parse
as a decimal offset. -/
def validateToken (token : String) : Option Nat :=
  if token = "" then some 0 else token.toNat?

/-- A list request over project/domain/name scoping
(`admin.ResourceListRequest`), restricted to the fields the list paths use. -/
structure ResourceListRequest where
  project : String
  domain : String
  name : String
  limit : Nat
  token : String
deriving DecidableEq, Repr

/-- Response of `ExecutionManager.ListExecutions`. -/
structure ExecutionList where
  executions : List ExecutionModel
  token : String
deriving DecidableEq, Repr

/-- Scoping filter derived from a list request's project/domain/name
(`util.GetDbFilters` on a `FilterSpec`): name is optional. -/
def matchesListScope (request : ResourceListRequest) (k : ExecutionKey) : Bool :=
  k.project = request.project && k.domain = request.domain &&
    (request.name = "" || k.name = request.name)

/-- Repository page read (`List` on a repo): scoped rows after the offset, at
most `limit` of them.  Caller-supplied inline filters and the sort order only
restrict or permute the scoped rows and are absorbed into the scoping
predicate. -/
def listPage (rows : List ExecutionModel) (offset limit : Nat) : List ExecutionModel :=
  (rows.drop offset).take limit

/-- Listing path of `ExecutionManager.ListExecutions`: required project/domain
and a positive limit are validated (`validation.ValidateResourceListRequest`),
the token is parsed into an offset, a page is read, and a continuation token
is produced exactly when the page is full.  No stored state is touched. -/
def ListExecutions (s : AdminState) (request : ResourceListRequest) :
    AdminState × Except Code ExecutionList :=
  if request.project = "" || request.domain = "" || request.limit = 0 then
    (s, .error .invalidArgument)
  else
    match validateToken request.token with
    | none => (s, .error .invalidArgument)
    | some offset =>
      let rows := (s.executions.filter (fun p => matchesListScope request p.1)).map (fun p => p.2)
      let executionList := listPage rows offset request.limit
      let token :=
        if executionList.length = request.limit then Nat.repr (offset + executionList.length)
        else ""
      (s, .ok { executions := executionList, token := token })

/-- Listing path shared by `NodeExecutionManager.ListNodeExecutions` and
`ListNodeExecutionsForTask` (`listNodeExecutions`): identifier filters are the
caller-supplied predicate; when `isParentOnly` is set the map filter keeping
only rows with no recorded parent task execution is added; the continuation
token follows the same full-page contract. -/
def listNodeExecutionsPage (db : NodeExecutionDB)
    (identifierMatch : NodeExecutionKey → Bool) (limit : Nat) (requestToken : String)
    (isParentOnly : Bool) : Except Code (List NodeExecutionModel × String) :=
  match validateToken requestToken with
  | none => .error .invalidArgument
  | some offset =>
    let rows := (db.filter (fun p =>
      identifierMatch p.1 && (!isParentOnly || p.2.parentTaskExecutionID = none))).map (fun p => p.2)
    let nodeExecutions := (rows.drop offset).take limit
    let token :=
      if nodeExecutions.length = limit then Nat.repr (offset + nodeExecutions.length) else ""
    .ok (nodeExecutions, token)

/-- Stored task row (`models.Task`), restricted to the digest and the
compiled closure. -/
structure CompiledTaskData where
  payload : String
deriving DecidableEq, Repr

/-- Identity of a task: (project, domain, name, version). -/
structure TaskIdentifier where
  project : String
  domain : String
  name : String
  version : String
deriving DecidableEq, Repr

/-- Stored task row with its structural digest. -/
structure TaskModel where
  digest : List Nat
  closure : CompiledTaskData
deriving DecidableEq, Repr

abbrev TaskDB := List (TaskIdentifier × TaskModel)

/-- Repository lookup of a task row (`util.GetTaskModel`). -/
def getTaskModel (db : TaskDB) (k : TaskIdentifier) : Option TaskModel :=
  (db.find? (fun p => p.1 = k)).map (fun p => p.2)

/-- Listing path of `TaskManager.ListTasks`: identical validation, offset and
full-page continuation token contract as execution listing, over the task
table. -/
def ListTasks (db : TaskDB) (request : ResourceListRequest) :
    Except Code (List TaskModel × String) :=
  if request.project = "" || request.domain = "" || request.limit = 0 then
    .error .invalidArgument
  else
    match validateToken request.token with
    | none => .error .invalidArgument
    | some offset =>
      let rows := (db.filter (fun p =>
        p.1.project = request.project && p.1.domain = request.domain &&
          (request.name = "" || p.1.name = request.name))).map (fun p => p.2)
      let taskList := (rows.drop offset).take request.limit
      let token :=
        if taskList.length = request.limit then Nat.repr (offset + taskList.length) else ""
      .ok (taskList, token)

/-- Registration path of `TaskManager.CreateTask`.  The request validation,
the compiler invocation and the digest computation are external collaborator
results, passed in as `validateTask`, `compileTask` and `getTaskDigest`; a
missing identifier fails in `setDefaults`.  When a task with the same
identifier already exists nothing is persisted: an equal digest is rejected
as `AlreadyExists`, a different digest as `InvalidArgument`; otherwise the new
row is stored. -/
def CreateTask (db : TaskDB) (requestId : Option TaskIdentifier)
    (validateTask : Except Code Unit) (compileTask : Except Code CompiledTaskData)
    (getTaskDigest : CompiledTaskData → List Nat) : TaskDB × Except Code Unit :=
  match validateTask with
  | .error c => (db, .error c)
  | .ok _ =>
    match requestId with
    | none => (db, .error .invalidArgument)
    | some id =>
      match compileTask with
      | .error c => (db, .error c)
      | .ok compiledTask =>
        let taskDigest := getTaskDigest compiledTask
        match getTaskModel db id with
        | some existingTask =>
          if taskDigest = existingTask.digest then
            (db, .error .alreadyExists)
          else
            (db, .error .invalidArgument)
        | none =>
          (db ++ [(id, { digest := taskDigest, closure := compiledTask })], .ok ())

/-- Termination path of `ExecutionManager.TerminateExecution`.  The remote
abort call (`workflowExecutor.TerminateWorkflowExecution`) is the collaborator
parameter `terminateWorkflowExecution`, invoked with the execution identity
and its stored cluster; only after it succeeds is the abort cause persisted
through `UpdateExecution`. -/
def TerminateExecution (s : AdminState)
    (terminateWorkflowExecution : ExecutionKey → String → Except Code Unit)
    (id : ExecutionKey) (cause : String) : AdminState × Except Code Unit :=
  if !validWorkflowExecutionIdentifier id then
    (s, .error .invalidArgument)
  else
    match getExecutionModel s.executions id with
    | none => (s, .error .notFound)
    | some executionModel =>
      match terminateWorkflowExecution id executionModel.cluster with
      | .error c => (s, .error c)
      | .ok _ =>
        let executionModel' := { executionModel with abortCause := cause }
        ({ s with executions := setExecutionModel s.executions id executionModel' }, .ok ())

/-- Response of `ExecutionManager.GetExecution`, restricted to the parts the
modelled read path fills in: the identity, the stored phase, the display
identity of a relaunch source, and the deprecated inline copies of the
offloaded inputs. -/
structure ExecutionResponse where
  id : ExecutionKey
  phase : WorkflowPhase
  sourceId : Option ExecutionKey
  computedInputs : Option LiteralMap
  userInputs : Option LiteralMap
deriving DecidableEq, Repr

/-- Read path of `ExecutionManager.GetExecution`: after validation and lookup,
a relaunch source execution is fetched by row id to reconstruct its display
identity, and the offloaded inputs (when references are present) are read back
into the deprecated inline response fields.  No stored state is touched. -/
def GetExecution (s : AdminState) (request : ExecutionKey) :
    AdminState × Except Code ExecutionResponse :=
  if !validWorkflowExecutionIdentifier request then
    (s, .error .invalidArgument)
  else
    match getExecutionModel s.executions request with
    | none => (s, .error .notFound)
    | some executionModel =>
      let sourceId? : Except Code (Option ExecutionKey) :=
        if executionModel.sourceExecutionID ≠ 0 then
          match getExecutionModelByID s.executions executionModel.sourceExecutionID with
          | none => .error .notFound
          | some reference => .ok (some reference.1)
        else .ok none
      match sourceId? with
      | .error c => (s, .error c)
      | .ok sourceId =>
        let base : ExecutionResponse :=
          { id := request, phase := executionModel.phase, sourceId := sourceId
            computedInputs := none, userInputs := none }
        let withInputs : Except Code ExecutionResponse :=
          if executionModel.inputsURI ≠ "" then
            match readStorage s.storage executionModel.inputsURI with
            | none => .error .unknown
            | some inputs => .ok { base with computedInputs := some inputs }
          else .ok base
        match withInputs with
        | .error c => (s, .error c)
        | .ok response =>
          if executionModel.userInputsURI ≠ "" then
            match readStorage s.storage executionModel.userInputsURI with
            | none => (s, .error .unknown)
            | some userInputs => (s, .ok { response with userInputs := some userInputs })
          else (s, .ok response)

/-- Response of `ExecutionManager.GetExecutionData`: signed URL blobs for the
execution outputs and inputs (the URL signer is modelled as a total
function). -/
structure ExecutionDataResponse where
  outputs : String
  inputs : String
deriving DecidableEq, Repr

/-- Read path of `ExecutionManager.GetExecutionData`.  When the stored row has
no offloaded-inputs reference (data written before flyteidl v0.15.0), the
legacy inline inputs from the serialized closure are offloaded now: the blob
is written and the row's `InputsURI` is persisted through `UpdateExecution`
so the offload is not repeated.  Executions with a reference are served
without touching stored state. -/
def GetExecutionData (s : AdminState) (urlGet : String → String) (request : ExecutionKey) :
    AdminState × Except Code ExecutionDataResponse :=
  match getExecutionModel s.executions request with
  | none => (s, .error .notFound)
  | some executionModel =>
    let outputsBlob :=
      if executionModel.outputsURI ≠ "" then urlGet executionModel.outputsURI else ""
    if executionModel.inputsURI = "" then
      let newInputsURI := constructReference request sharedInputs
      let executionModel' := { executionModel with inputsURI := newInputsURI }
      let s' : AdminState :=
        { s with
          storage := writeStorage s.storage newInputsURI
            (executionModel.legacyComputedInputs.getD [])
          executions := setExecutionModel s.executions request executionModel' }
      (s', .ok { outputs := outputsBlob, inputs := urlGet newInputsURI })
    else
      (s, .ok { outputs := outputsBlob, inputs := urlGet executionModel.inputsURI })

/-- Value extracted from the generic JSON document of an inbound pubsub
envelope: the processor only distinguishes string values from everything
else. -/
inductive JValue where
  | str (s : String)
  | other
deriving DecidableEq, Repr

/-- One message received from the pubsub subscription.  The external decode
and send calls the processor makes on it are carried as oracles: the result of
`json.Unmarshal` on the raw body, of `base64.StdEncoding.DecodeString` on the
extracted field, of `proto.Unmarshal` on the decoded bytes, and of
`email.SendEmail` on the decoded notification. -/
structure SubscriberMessage where
  unmarshalled : Option (List (String × JValue))
  base64Decode : String → Option (List Nat)
  protoUnmarshal : List Nat → Option EmailMessage
  sendEmail : EmailMessage → Bool

/-- Failure-kind counter incremented for one processed message
(`processorSystemMetrics`). -/
inductive ProcessorCounter where
  | decodingError
  | dataError
  | processorError
  | success
deriving DecidableEq, Repr

/-- Observable effects of processing one message: how many times `Done()` was
called on it, which counter was incremented, and the email handed to the
sender (if the decode chain succeeded). -/
structure MessageEffects where
  doneCalls : Nat
  counter : ProcessorCounter
  sentEmail : Option EmailMessage
deriving DecidableEq, Repr

/-- Body of the receive loop of `Processor.StartProcessing` for one message:
every failure stage (outer JSON decode, missing `Message` field, non-string
field, base64 decode, proto unmarshal) is counted and the message is marked
done anyway; on a successful decode the email is sent and the message is
marked done whether or not the send succeeded. -/
def processMessage (msg : SubscriberMessage) : MessageEffects :=
  match msg.unmarshalled with
  | none => { doneCalls := 1, counter := .decodingError, sentEmail := none }
  | some snsJSONFormat =>
    match (snsJSONFormat.find? (fun p => p.1 = "Message")).map (fun p => p.2) with
    | none => { doneCalls := 1, counter := .dataError, sentEmail := none }
    | some value =>
      match value with
      | .other => { doneCalls := 1, counter := .dataError, sentEmail := none }
      | .str valueString =>
        match msg.base64Decode valueString with
        | none => { doneCalls := 1, counter := .decodingError, sentEmail := none }
        | some notificationBytes =>
          match msg.protoUnmarshal notificationBytes with
          | none => { doneCalls := 1, counter := .decodingError, sentEmail := none }
          | some emailMessage =>
            if msg.sendEmail emailMessage then
              { doneCalls := 1, counter := .success, sentEmail := some emailMessage }
            else
              { doneCalls := 1, counter := .processorError, sentEmail := some emailMessage }

/-- Receive loop of `Processor.StartProcessing`: the subscription channel is
the list of messages delivered before it closes; every message is processed in
order, and only after the channel is exhausted does the loop return whatever
terminal error the subscription reports (`sub.Err()`). -/
def StartProcessing (messages : List SubscriberMessage) (subErr : Option String) :
    List MessageEffects × Option String :=
  (messages.map processMessage, subErr)

/-- Concrete execution identity used by the witnesses below. -/
def sampleKey : ExecutionKey := { project := "flytekit", domain := "production", name := "exec1" }

/-- Offloaded-inputs reference of the sample execution. -/
def sampleInputsURI : String := constructReference sampleKey sharedInputs

/-- Concrete stored execution row at a given phase. -/
def sampleModel (phase : WorkflowPhase) : ExecutionModel :=
  { id := 1, phase := phase, cluster := "cluster1", abortCause := ""
    inputsURI := sampleInputsURI, userInputsURI := "", outputsURI := ""
    sourceExecutionID := 0, notifications := [], legacyComputedInputs := none }

/-- Concrete node execution identity under `sampleKey`. -/
def sampleNodeKey : NodeExecutionKey := { executionId := sampleKey, nodeId := "node0" }

/-- Concrete stored node execution row at a given phase. -/
def sampleNodeModel (phase : NodePhase) : NodeExecutionModel :=
  { phase := phase, parentTaskExecutionID := none, childExecutionId := none }

/-- Concrete persisted state holding one workflow execution and one node
execution at the given phases. -/
def sampleState (wfPhase : WorkflowPhase) (nodePhase : NodePhase) : AdminState :=
  { executions := [(sampleKey, sampleModel wfPhase)]
    executionEvents := []
    nodeExecutions := [(sampleNodeKey, sampleNodeModel nodePhase)]
    nodeExecutionEvents := []
    taskExecutions := []
    storage := [(sampleInputsURI, [("x", "1")])] }

/-- Concrete legacy execution row: no offloaded-inputs reference, inputs held
inline in the serialized closure (data written before flyteidl v0.15.0). -/
def legacyModel : ExecutionModel :=
  { sampleModel .running with inputsURI := "", legacyComputedInputs := some [("x", "1")] }

/-- Concrete persisted state holding the legacy execution row. -/
def legacyState : AdminState :=
  { sampleState .running .running with executions := [(sampleKey, legacyModel)] }

/-- Concrete notification setting on the chat channel, as in the spec
scenario. -/
def chatNotification : Notification :=
  { phases := [.succeeded, .failed], email := none, pagerDuty := none
    slack := some { recipientsEmail := ["a@x.com"] } }

/-- Concrete notification setting with no recognized channel populated. -/
def badNotification : Notification :=
  { phases := [.succeeded], email := none, pagerDuty := none, slack := none }

/-- Concrete queue assignment, as in the spec scenario. -/
def gpuQueue : SingleQueueConfiguration :=
  { primaryQueue := "gpu_primary", dynamicQueue := "gpu_dynamic" }

/-- Concrete compiled task with a container target. -/
def containerTask : CompiledTask :=
  { template := { id := "task1", container := some { config := [{ key := "cpu", value := "100m" }] } } }

/-- Concrete compiled task without a container target. -/
def plainTask : CompiledTask := { template := { id := "task2", container := none } }

/-- Concrete container-backed task after queue allocation with `gpuQueue`. -/
def containerTaskWithQueues : CompiledTask :=
  { template := { id := "task1", container := some { config :=
      [{ key := "cpu", value := "100m" },
       { key := parentContainerQueueKey, value := "gpu_primary" },
       { key := childContainerQueueKey, value := "gpu_dynamic" }] } } }

/-- Concrete list request over the sample project and domain asking for one
item starting from the empty continuation token. -/
def sampleListRequest : ResourceListRequest :=
  { project := "flytekit", domain := "production", name := "", limit := 1, token := "" }

/-- Concrete task identity. -/
def sampleTaskId : TaskIdentifier :=
  { project := "flytekit", domain := "production", name := "task1", version := "v1" }

/-- Concrete stored task row. -/
def sampleTaskModel : TaskModel := { digest := [1, 2, 3], closure := { payload := "compiled" } }

/-- Concrete task table holding one task. -/
def sampleTaskDB : TaskDB := [(sampleTaskId, sampleTaskModel)]

/-- Auxiliary: `Nat.toDigitsCore` never shrinks its accumulator. -/
theorem toDigitsCore_length_le (b : Nat) :
    ∀ (f n : Nat) (l : List Char), l.length ≤ (Nat.toDigitsCore b f n l).length := by
  intro f
  induction f with
  | zero => intro n l; simp [Nat.toDigitsCore]
  | succ f ih =>
    intro n l
    simp only [Nat.toDigitsCore]
    split
    · simp
    · exact le_trans (by simp) (ih (n / b) ((n % b).digitChar :: l))

/-- Auxiliary: with positive fuel, `Nat.toDigitsCore` emits at least one
digit. -/
theorem toDigitsCore_length_pos (b f n : Nat) (l : List Char) :
    l.length + 1 ≤ (Nat.toDigitsCore b (f + 1) n l).length := by
  simp only [Nat.toDigitsCore]
  split
  · simp
  · exact le_trans (by simp) (toDigitsCore_length_le b f (n / b) ((n % b).digitChar :: l))

/-- Auxiliary: the decimal representation of a natural number is never the
empty string. -/
theorem natRepr_ne_empty (n : Nat) : Nat.repr n ≠ "" := by
  intro h
  have hlen := toDigitsCore_length_pos 10 n n []
  have hdata : (Nat.toDigitsCore 10 (n + 1) n []).length = 0 := by
    have hcong := congrArg (fun s => s.data.length) h
    simpa [Nat.repr, Nat.toDigits, List.asString] using hcong
  simp at hlen
  omega

/-- C2: for every workflow execution and every existing node execution, an
event reporting the currently persisted phase is rejected with AlreadyExists
and the stored state (records and event logs) is left unchanged, whatever the
current phase is — terminal or not. -/
theorem duplicatePhaseEventRejected :
    (∀ (s : AdminState) (request : WorkflowEvent) (executionModel : ExecutionModel),
      getExecutionModel s.executions request.executionId = some executionModel →
      executionModel.phase = request.phase →
      CreateWorkflowEvent s request = (s, .error .alreadyExists))
  ∧ (∀ (s : AdminState) (request : NodeEvent) (wf : ExecutionModel)
      (nodeExecutionModel : NodeExecutionModel),
      getExecutionModel s.executions request.id.executionId = some wf →
      getNodeExecutionModel s.nodeExecutions request.id = some nodeExecutionModel →
      nodeExecutionModel.phase = request.phase →
      CreateNodeEvent s request = (s, .error .alreadyExists)) := by
  constructor
  · intro s request m hget hphase
    simp [CreateWorkflowEvent, hget, hphase]
  · intro s request wf m hwf hget hphase
    simp [CreateNodeEvent, hwf, hget, updateNodeExecutionWithEvent, hphase]

/-- Witness for C2: a running execution and a running node execution each
reject a second report of the running phase with AlreadyExists, leaving the
state unchanged. -/
theorem duplicatePhaseEventRejected_witness :
    CreateWorkflowEvent (sampleState .running .running)
        { executionId := sampleKey, requestId := "r1", phase := .running } =
      (sampleState .running .running, .error .alreadyExists)
  ∧ CreateNodeEvent (sampleState .running .running)
        { id := sampleNodeKey, requestId := "r2", phase := .running
          parentTaskMetadata := none, workflowNodeMetadata := none } =
      (sampleState .running .running, .error .alreadyExists) :=
  ⟨duplicatePhaseEventRejected.1 _ _ (sampleModel .running) (by decide) (by decide),
   duplicatePhaseEventRejected.2 _ _ (sampleModel .running) (sampleNodeModel .running)
     (by decide) (by decide) (by decide)⟩

/-- Counterexample for C1: with the stored phase terminal (succeeded), an
event reporting that same phase is rejected with AlreadyExists — not with the
FailedPrecondition terminal-state error the claim requires for every reported
phase — for both the workflow and the node execution manager. -/
theorem terminalStateAbsorbing_counterexample :
    isExecutionTerminal (sampleModel .succeeded).phase = true
  ∧ (CreateWorkflowEvent (sampleState .succeeded .succeeded)
        { executionId := sampleKey, requestId := "r3", phase := .succeeded }).2 =
      .error Code.alreadyExists
  ∧ isNodeExecutionTerminal (sampleNodeModel .succeeded).phase = true
  ∧ (CreateNodeEvent (sampleState .succeeded .succeeded)
        { id := sampleNodeKey, requestId := "r4", phase := .succeeded
          parentTaskMetadata := none, workflowNodeMetadata := none }).2 =
      .error Code.alreadyExists
  ∧ Code.alreadyExists ≠ Code.failedPrecondition := by decide

/-- C1 (amended): once the persisted phase of a workflow or node execution is
terminal, every subsequent event is rejected and the stored state left
unchanged; an event reporting a phase different from the stored one fails
with the FailedPrecondition terminal-state error, while an event reporting
the stored terminal phase itself fails with AlreadyExists. -/
theorem terminalStateAbsorbing :
    (∀ (s : AdminState) (request : WorkflowEvent) (executionModel : ExecutionModel),
      getExecutionModel s.executions request.executionId = some executionModel →
      isExecutionTerminal executionModel.phase = true →
      (executionModel.phase ≠ request.phase →
        CreateWorkflowEvent s request = (s, .error .failedPrecondition))
      ∧ (executionModel.phase = request.phase →
        CreateWorkflowEvent s request = (s, .error .alreadyExists)))
  ∧ (∀ (s : AdminState) (request : NodeEvent) (wf : ExecutionModel)
      (nodeExecutionModel : NodeExecutionModel),
      getExecutionModel s.executions request.id.executionId = some wf →
      getNodeExecutionModel s.nodeExecutions request.id = some nodeExecutionModel →
      isNodeExecutionTerminal nodeExecutionModel.phase = true →
      (nodeExecutionModel.phase ≠ request.phase →
        CreateNodeEvent s request = (s, .error .failedPrecondition))
      ∧ (nodeExecutionModel.phase = request.phase →
        CreateNodeEvent s request = (s, .error .alreadyExists))) := by
  constructor
  · intro s request m hget hterm
    constructor
    · intro hne
      simp [CreateWorkflowEvent, hget, hne, hterm]
    · intro heq
      simp [CreateWorkflowEvent, hget, heq]
  · intro s request wf m hwf hget hterm
    constructor
    · intro hne
      simp [CreateNodeEvent, hwf, hget, updateNodeExecutionWithEvent, hne, hterm]
    · intro heq
      simp [CreateNodeEvent, hwf, hget, updateNodeExecutionWithEvent, heq]

/-- Witness for C1 (amended): a succeeded execution rejects a report of the
failed phase with FailedPrecondition, and likewise for a succeeded node
execution. -/
theorem terminalStateAbsorbing_witness :
    CreateWorkflowEvent (sampleState .succeeded .running)
        { executionId := sampleKey, requestId := "r5", phase := .failed } =
      (sampleState .succeeded .running, .error .failedPrecondition)
  ∧ CreateNodeEvent (sampleState .running .succeeded)
        { id := sampleNodeKey, requestId := "r6", phase := .failed
          parentTaskMetadata := none, workflowNodeMetadata := none } =
      (sampleState .running .succeeded, .error .failedPrecondition) :=
  ⟨(terminalStateAbsorbing.1 _ _ (sampleModel .succeeded) (by decide) (by decide)).1 (by decide),
   (terminalStateAbsorbing.2 _ _ (sampleModel .running) (sampleNodeModel .succeeded)
     (by decide) (by decide) (by decide)).1 (by decide)⟩

/-- C3: with a non-empty primary and dynamic queue name, queue allocation
appends the primary name under the key "parent_queue" and the dynamic name
under the key "child_queue" to the container configuration of every
container-backed task of the compiled workflow, and leaves tasks without a
container target unmodified. -/
theorem queueAllocationAppendsQueueKeys (queueConfig : SingleQueueConfiguration)
    (tasks : List CompiledTask)
    (hp : queueConfig.primaryQueue ≠ "") (hd : queueConfig.dynamicQueue ≠ "") :
    populateExecutionQueue queueConfig tasks = tasks.map (fun task =>
      match task.template.container with
      | none => task
      | some container =>
        { task with template := { task.template with container := some ({ container with
            config := container.config ++
                [{ key := parentContainerQueueKey, value := queueConfig.primaryQueue },
                 { key := childContainerQueueKey, value := queueConfig.dynamicQueue }] }) } }) := by
  unfold populateExecutionQueue
  refine List.map_congr_left fun task _ => ?_
  cases h : task.template.container with
  | none => simp [h]
  | some container => simp [h, hp, hd]

/-- Witness for C3 at the spec scenario: queues (gpu_primary, gpu_dynamic)
applied to one container-backed task and one task without a container. -/
theorem queueAllocationAppendsQueueKeys_witness :
    populateExecutionQueue gpuQueue [containerTask, plainTask] =
      [containerTaskWithQueues, plainTask] := by
  have h := queueAllocationAppendsQueueKeys gpuQueue [containerTask, plainTask]
    (by decide) (by decide)
  rw [h]
  decide

/-- C4: notification publishing skips every entry whose trigger phases do
not contain the reported phase; when every surviving entry has a recognized
channel (email, pager-duty or slack), each yields exactly one email-shaped
message addressed to that entry's recipients and no error is raised; when
some surviving entry has no recognized channel, the operation fails with an
Internal error. -/
theorem publishNotificationsNormalization (eventPhase : WorkflowPhase) (l : List Notification) :
    ((∀ n ∈ l, eventPhase ∈ n.phases → (notificationRecipients n).isSome = true) →
      publishNotifications eventPhase l =
        ((l.filter (fun n => n.phases.contains eventPhase)).map
          (fun n => { recipientsEmail :=
            ((notificationRecipients n).getD { recipientsEmail := [] }).recipientsEmail }),
          none))
  ∧ ((∃ n ∈ l, eventPhase ∈ n.phases ∧ notificationRecipients n = none) →
      (publishNotifications eventPhase l).2 = some Code.internal) := by
  induction l with
  | nil =>
    constructor
    · intro _
      rfl
    · rintro ⟨n, hn, _⟩
      cases hn
  | cons head tail ih =>
    constructor
    · intro hall
      by_cases hmem : eventPhase ∈ head.phases
      · cases hrec : notificationRecipients head with
        | none =>
          have hsome := hall head (by simp) hmem
          rw [hrec] at hsome
          cases hsome
        | some e =>
          have htail := ih.1 fun n hn h => hall n (by simp [hn]) h
          simp [publishNotifications, hmem, hrec, htail]
      · have htail := ih.1 fun n hn h => hall n (by simp [hn]) h
        simp [publishNotifications, hmem, htail]
    · rintro ⟨n, hn, hmem, hnone⟩
      rcases List.mem_cons.mp hn with h | h
      · subst h
        simp [publishNotifications, hmem, hnone]
      · by_cases hm : eventPhase ∈ head.phases
        · cases hrec : notificationRecipients head with
          | none => simp [publishNotifications, hm, hrec]
          | some e =>
            have htail := ih.2 ⟨n, h, hmem, hnone⟩
            simp [publishNotifications, hm, hrec, htail]
        · have htail := ih.2 ⟨n, h, hmem, hnone⟩
          simp [publishNotifications, hm, htail]

/-- Witness for C4 at the spec scenario: a chat entry triggering on succeeded
and failed yields exactly one message to its recipient on succeeded, nothing
on running, and an entry with no recognized channel fails with Internal. -/
theorem publishNotificationsNormalization_witness :
    publishNotifications .succeeded [chatNotification] =
      ([{ recipientsEmail := ["a@x.com"] }], none)
  ∧ (publishNotifications .running [chatNotification]).1 = []
  ∧ (publishNotifications .succeeded [badNotification]).2 = some Code.internal := by
  refine ⟨?_, ?_, ?_⟩
  · have h := (publishNotificationsNormalization .succeeded [chatNotification]).1 (by decide)
    rw [h]
    decide
  · have h := (publishNotificationsNormalization .running [chatNotification]).1 (by decide)
    rw [h]
    decide
  · exact (publishNotificationsNormalization .succeeded [badNotification]).2 (by decide)

/-- C5: request-level notification settings (when non-empty) override the
launch-plan settings, an explicit disable-all on the request yields the empty
notification list, and absent any override the launch-plan settings apply. -/
theorem notificationSettingsResolution (launchPlanNotifications : Option (List Notification)) :
    (∀ l : List Notification, l ≠ [] →
      resolveNotificationsSettings launchPlanNotifications (.notifications l) = l)
  ∧ resolveNotificationsSettings launchPlanNotifications (.disableAll true) = []
  ∧ resolveNotificationsSettings launchPlanNotifications .noOverride =
      launchPlanNotifications.getD [] := by
  refine ⟨?_, rfl, rfl⟩
  intro l hl
  have hpos : 0 < l.length := List.length_pos.mpr hl
  simp [resolveNotificationsSettings, hpos]

/-- Witness for C5: a request-level entry overrides the launch-plan entry,
and disable-all clears the list. -/
theorem notificationSettingsResolution_witness :
    resolveNotificationsSettings (some [badNotification]) (.notifications [chatNotification]) =
      [chatNotification]
  ∧ resolveNotificationsSettings (some [badNotification]) (.disableAll true) = [] :=
  ⟨(notificationSettingsResolution (some [badNotification])).1 [chatNotification] (by decide),
   (notificationSettingsResolution (some [badNotification])).2.1⟩

/-- Auxiliary: shape of the continuation token produced by every list path — a
full page yields the decimal representation of offset plus page length, any
other page yields the empty token. -/
theorem fullPageToken (len limit offset : Nat) :
    ((if len = limit then Nat.repr (offset + len) else "") ≠ "" ↔ len = limit)
  ∧ (len = limit →
      (if len = limit then Nat.repr (offset + len) else "") = Nat.repr (offset + len)) := by
  by_cases hlen : len = limit
  · simp [hlen, natRepr_ne_empty]
  · simp [hlen]

/-- C6: for every execution, node execution and task list request, the
response carries a non-empty continuation token exactly when the returned
page length equals the requested limit, and a non-empty token is the decimal
encoding of the request offset plus the number of returned items. -/
theorem paginationTokenContract :
    (∀ (s : AdminState) (request : ResourceListRequest) (offset : Nat)
      (response : ExecutionList),
      validateToken request.token = some offset →
      ListExecutions s request = (s, .ok response) →
      (response.token ≠ "" ↔ response.executions.length = request.limit)
        ∧ (response.executions.length = request.limit →
            response.token = Nat.repr (offset + response.executions.length)))
  ∧ (∀ (db : NodeExecutionDB) (identifierMatch : NodeExecutionKey → Bool) (limit : Nat)
      (requestToken : String) (isParentOnly : Bool) (offset : Nat)
      (page : List NodeExecutionModel) (token : String),
      validateToken requestToken = some offset →
      listNodeExecutionsPage db identifierMatch limit requestToken isParentOnly =
        .ok (page, token) →
      (token ≠ "" ↔ page.length = limit)
        ∧ (page.length = limit → token = Nat.repr (offset + page.length)))
  ∧ (∀ (db : TaskDB) (request : ResourceListRequest) (offset : Nat)
      (page : List TaskModel) (token : String),
      validateToken request.token = some offset →
      ListTasks db request = .ok (page, token) →
      (token ≠ "" ↔ page.length = request.limit)
        ∧ (page.length = request.limit → token = Nat.repr (offset + page.length))) := by
  refine ⟨?_, ?_, ?_⟩
  · intro s request offset response hval hok
    unfold ListExecutions at hok
    split at hok
    · simp at hok
    · rw [hval] at hok
      simp only [Prod.mk.injEq, Except.ok.injEq] at hok
      obtain ⟨-, hok⟩ := hok
      subst hok
      exact fullPageToken _ request.limit offset
  · intro db identifierMatch limit requestToken isParentOnly offset page token hval hok
    unfold listNodeExecutionsPage at hok
    rw [hval] at hok
    simp only [Except.ok.injEq, Prod.mk.injEq] at hok
    obtain ⟨hpage, htoken⟩ := hok
    subst hpage
    subst htoken
    exact fullPageToken _ limit offset
  · intro db request offset page token hval hok
    unfold ListTasks at hok
    split at hok
    · simp at hok
    · rw [hval] at hok
      simp only [Except.ok.injEq, Prod.mk.injEq] at hok
      obtain ⟨hpage, htoken⟩ := hok
      subst hpage
      subst htoken
      exact fullPageToken _ request.limit offset

/-- Witness for C6: listing the single stored execution, node execution and
task with limit 1 from offset 0 produces the full-page token in every list
path. -/
theorem paginationTokenContract_witness :
    (({ executions := [sampleModel .running], token := "1" } : ExecutionList).token ≠ "" ↔
      ({ executions := [sampleModel .running], token := "1" } : ExecutionList).executions.length =
        sampleListRequest.limit)
  ∧ (("1" : String) ≠ "" ↔ [sampleNodeModel .running].length = 1)
  ∧ (("1" : String) ≠ "" ↔ [sampleTaskModel].length = sampleListRequest.limit) :=
  ⟨(paginationTokenContract.1 (sampleState .running .running) sampleListRequest 0
      { executions := [sampleModel .running], token := "1" } (by decide) (by decide)).1,
   (paginationTokenContract.2.1 [(sampleNodeKey, sampleNodeModel .running)] (fun _ => true) 1
      "" true 0 [sampleNodeModel .running] "1" (by decide) (by decide)).1,
   (paginationTokenContract.2.2 sampleTaskDB sampleListRequest 0 [sampleTaskModel] "1"
      (by decide) (by decide)).1⟩

/-- C7: when the remote abort call fails, TerminateExecution leaves the stored
state unchanged (no abort cause is persisted) and propagates the abort error;
the abort cause is persisted exactly when the remote abort succeeds. -/
theorem terminateAbortFailureLeavesStateUnchanged (s : AdminState)
    (terminateWorkflowExecution : ExecutionKey → String → Except Code Unit)
    (id : ExecutionKey) (cause : String) (executionModel : ExecutionModel)
    (hvalid : validWorkflowExecutionIdentifier id = true)
    (hget : getExecutionModel s.executions id = some executionModel) :
    (∀ c, terminateWorkflowExecution id executionModel.cluster = .error c →
      TerminateExecution s terminateWorkflowExecution id cause = (s, .error c))
  ∧ (terminateWorkflowExecution id executionModel.cluster = .ok () →
      TerminateExecution s terminateWorkflowExecution id cause =
        ({ s with executions := setExecutionModel s.executions id { executionModel with
            abortCause := cause } }, .ok ())) := by
  constructor
  · intro c habort
    simp [TerminateExecution, hvalid, hget, habort]
  · intro habort
    simp [TerminateExecution, hvalid, hget, habort]

/-- Witness for C7: a failing remote abort leaves the sample state untouched
and surfaces the abort error, a succeeding one persists the cause. -/
theorem terminateAbortFailureLeavesStateUnchanged_witness :
    TerminateExecution (sampleState .running .running) (fun _ _ => .error .unknown) sampleKey
        "user abort" = (sampleState .running .running, .error .unknown)
  ∧ TerminateExecution (sampleState .running .running) (fun _ _ => .ok ()) sampleKey
        "user abort" =
      ({ sampleState .running .running with
          executions := setExecutionModel (sampleState .running .running).executions sampleKey
            ({ sampleModel .running with abortCause := "user abort" }) }, .ok ()) :=
  ⟨(terminateAbortFailureLeavesStateUnchanged (sampleState .running .running) _ sampleKey
      "user abort" (sampleModel .running) (by decide) (by decide)).1 .unknown rfl,
   (terminateAbortFailureLeavesStateUnchanged (sampleState .running .running) _ sampleKey
      "user abort" (sampleModel .running) (by decide) (by decide)).2 rfl⟩

/-- Auxiliary: every branch of the processor loop body marks the message done
exactly once. -/
theorem processMessage_doneCalls (msg : SubscriberMessage) :
    (processMessage msg).doneCalls = 1 := by
  unfold processMessage
  repeat' split
  all_goals rfl

/-- C8: every message received before the subscription channel closes is
acknowledged (marked done) exactly once, regardless of decode or send
outcome, and the loop returns the subscription's terminal error only after
the whole channel has been consumed. -/
theorem processorAcksEveryMessageOnce (messages : List SubscriberMessage)
    (subErr : Option String) :
    (StartProcessing messages subErr).1.map MessageEffects.doneCalls =
      List.replicate messages.length 1
  ∧ (StartProcessing messages subErr).1.length = messages.length
  ∧ (StartProcessing messages subErr).2 = subErr := by
  refine ⟨?_, by simp [StartProcessing], rfl⟩
  induction messages with
  | nil => rfl
  | cons m ms ih =>
    simpa [StartProcessing, processMessage_doneCalls, List.replicate_succ] using ih

/-- Counterexample for C9: reading execution data of a legacy execution row
(no offloaded-inputs reference) mutates persisted state — the legacy inline
inputs are offloaded to storage and the new reference is written back to the
execution record. -/
theorem readOnlyAccessors_counterexample :
    legacyModel.inputsURI = ""
  ∧ (GetExecutionData legacyState (fun u => u) sampleKey).1 ≠ legacyState
  ∧ getExecutionModel (GetExecutionData legacyState (fun u => u) sampleKey).1.executions
      sampleKey = some { legacyModel with inputsURI := sampleInputsURI } := by decide

/-- C9 (amended): GetExecution and ListExecutions leave all persisted state
unchanged; GetExecutionData leaves it unchanged whenever the stored execution
carries an offloaded-inputs reference, and otherwise performs a one-time
migration write that offloads the legacy inline inputs and persists the new
reference on the execution record. -/
theorem readOnlyAccessors :
    (∀ (s : AdminState) (request : ExecutionKey), (GetExecution s request).1 = s)
  ∧ (∀ (s : AdminState) (request : ResourceListRequest), (ListExecutions s request).1 = s)
  ∧ (∀ (s : AdminState) (urlGet : String → String) (request : ExecutionKey)
      (executionModel : ExecutionModel),
      getExecutionModel s.executions request = some executionModel →
      executionModel.inputsURI ≠ "" →
      (GetExecutionData s urlGet request).1 = s)
  ∧ (∀ (s : AdminState) (urlGet : String → String) (request : ExecutionKey)
      (executionModel : ExecutionModel),
      getExecutionModel s.executions request = some executionModel →
      executionModel.inputsURI = "" →
      (GetExecutionData s urlGet request).1 =
        { s with
          storage := writeStorage s.storage (constructReference request sharedInputs)
            (executionModel.legacyComputedInputs.getD [])
          executions := setExecutionModel s.executions request
            ({ executionModel with inputsURI := constructReference request sharedInputs }) }) := by
  refine ⟨?_, ?_, ?_, ?_⟩
  · intro s request
    unfold GetExecution
    repeat' split
    all_goals rfl
  · intro s request
    unfold ListExecutions
    repeat' split
    all_goals rfl
  · intro s urlGet request executionModel hget hne
    simp [GetExecutionData, hget, hne]
  · intro s urlGet request executionModel hget heq
    simp [GetExecutionData, hget, heq]

/-- Witness for C9 (amended): the sample execution with an offloaded-inputs
reference is served without touching state, while the legacy execution
triggers exactly the migration write. -/
theorem readOnlyAccessors_witness :
    (GetExecution (sampleState .running .running) sampleKey).1 = sampleState .running .running
  ∧ (GetExecutionData (sampleState .running .running) (fun u => u) sampleKey).1 =
      sampleState .running .running
  ∧ (GetExecutionData legacyState (fun u => u) sampleKey).1 =
      { legacyState with
        storage := writeStorage legacyState.storage (constructReference sampleKey sharedInputs)
          (legacyModel.legacyComputedInputs.getD [])
        executions := setExecutionModel legacyState.executions sampleKey
          ({ legacyModel with inputsURI := constructReference sampleKey sharedInputs }) } :=
  ⟨readOnlyAccessors.1 (sampleState .running .running) sampleKey,
   readOnlyAccessors.2.2.1 (sampleState .running .running) (fun u => u) sampleKey
     (sampleModel .running) (by decide) (by decide),
   readOnlyAccessors.2.2.2 legacyState (fun u => u) sampleKey legacyModel
     (by decide) (by decide)⟩

/-- C10: a CreateTask request whose identifier matches an already stored task
persists nothing and fails — with AlreadyExists when the freshly compiled
task's digest equals the stored digest, and with InvalidArgument when the
digests differ. -/
theorem createTaskDuplicateHandling (db : TaskDB) (id : TaskIdentifier)
    (compiledTask : CompiledTaskData) (getTaskDigest : CompiledTaskData → List Nat)
    (existingTask : TaskModel)
    (hget : getTaskModel db id = some existingTask) :
    (getTaskDigest compiledTask = existingTask.digest →
      CreateTask db (some id) (.ok ()) (.ok compiledTask) getTaskDigest =
        (db, .error .alreadyExists))
  ∧ (getTaskDigest compiledTask ≠ existingTask.digest →
      CreateTask db (some id) (.ok ()) (.ok compiledTask) getTaskDigest =
        (db, .error .invalidArgument)) := by
  constructor
  · intro heq
    simp [CreateTask, hget, heq]
  · intro hne
    simp [CreateTask, hget, hne]

/-- Witness for C10: re-registering the stored task with an identical digest
fails with AlreadyExists, with a different digest with InvalidArgument; the
task table is unchanged in both cases. -/
theorem createTaskDuplicateHandling_witness :
    CreateTask sampleTaskDB (some sampleTaskId) (.ok ()) (.ok { payload := "compiled" })
        (fun _ => [1, 2, 3]) = (sampleTaskDB, .error .alreadyExists)
  ∧ CreateTask sampleTaskDB (some sampleTaskId) (.ok ()) (.ok { payload := "compiled" })
        (fun _ => [9]) = (sampleTaskDB, .error .invalidArgument) :=
  ⟨(createTaskDuplicateHandling sampleTaskDB sampleTaskId { payload := "compiled" }
      (fun _ => [1, 2, 3]) sampleTaskModel (by decide)).1 (by decide),
   (createTaskDuplicateHandling sampleTaskDB sampleTaskId { payload := "compiled" }
      (fun _ => [9]) sampleTaskModel (by decide)).2 (by decide)⟩

end Flyteadmin
